import Mathlib

/-!
Verification development for the interactive image viewer and marker engine
(ImageViewer component, ImageMarkerPage container, ImageMarkerForm).

The engine is shallowly embedded: coordinates are exact rationals, React
state updates become explicit state passing, and the notification callbacks
(onSelectionChange, onMarkerSelect, onMarkerMove) become explicit lists of
emitted notifications.  The container page ImageMarkerPage always supplies
all callbacks, so the embedding models them as present.
-/

namespace ImageMarker

/-- A 2D point with exact rational coordinates. -/
structure Point where
  x : ℚ
  y : ℚ
deriving DecidableEq, Repr

/-- The selection record: an image-space rectangle plus a visibility flag.
Matches the selection state shape of both ImageViewer (imageSelection) and
ImageMarkerPage (selection). -/
structure Sel where
  x : ℚ
  y : ℚ
  width : ℚ
  height : ℚ
  visible : Bool
deriving DecidableEq, Repr

/-- A persisted marker, as defined in ImageMarkerPage: an id, a name, an
image-space rectangle, and optional OCR text. -/
structure Marker where
  id : String
  name : String
  x : ℚ
  y : ℚ
  width : ℚ
  height : ℚ
  ocrText : Option String
deriving DecidableEq, Repr

/-- The payload of an onSelectionChange call: the selection fields plus the
optional isNewSelection flag (absent on most paths, present and true on the
draw-gesture path). -/
structure SelChangePayload where
  sel : Sel
  isNewSelection : Option Bool
deriving DecidableEq, Repr

/-- A notification emitted by the viewer to its owner: one of the three
callbacks of ImageViewerProps. -/
inductive Notification where
  | selectionChange : SelChangePayload → Notification
  | markerSelect : Option String → Notification
  | markerMove : String → ℚ → ℚ → ℚ → ℚ → Notification
deriving DecidableEq, Repr

/-- The internal state of the ImageViewer component: viewport scale and
position, the transient image-space selection, and the gesture flags.
The loaded image is abstracted to the flag imageLoaded (the handlers only
test its presence). -/
structure ViewerState where
  scale : ℚ
  position : Point
  imageSelection : Sel
  isDrawing : Bool
  startPoint : Point
  isDragging : Bool
  spacePressed : Bool
  imageLoaded : Bool
deriving DecidableEq, Repr

/-- The data of a pointer event as the handlers read it: whether the Konva
target is a Rect shape, the modifier keys, the button, the movement deltas,
and the stage-relative pointer position (none when it cannot be resolved). -/
structure MouseEvt where
  targetIsRect : Bool
  altKey : Bool
  ctrlKey : Bool
  button : ℕ
  movementX : ℚ
  movementY : ℚ
  pointerPos : Option Point
deriving DecidableEq, Repr

/-- stageToImageCoords: converts a stage point to image coordinates,
x = (stageX - position.x) / scale, y = (stageY - position.y) / scale. -/
def stageToImageCoords (s : ViewerState) (stageX stageY : ℚ) : Point :=
  ⟨(stageX - s.position.x) / s.scale, (stageY - s.position.y) / s.scale⟩

/-- The inverse map used by the render code of the selection and marker
Rects: screen = position + image * scale (Rect props x, y in the render). -/
def renderScreenCoords (s : ViewerState) (ix iy : ℚ) : Point :=
  ⟨s.position.x + ix * s.scale, s.position.y + iy * s.scale⟩

/-- handleMouseDown: no-op without an image, on a Rect target, or without a
resolvable pointer; starts panning when space is held with the primary
button; otherwise, when Alt is held with the primary button, starts a draw
gesture: records the press point in image space, replaces the selection
with a zero-size visible rectangle there, and notifies the owner with
isNewSelection set. -/
def handleMouseDown (s : ViewerState) (e : MouseEvt) :
    ViewerState × List Notification :=
  if s.imageLoaded = false then (s, [])
  else if e.targetIsRect = true then (s, [])
  else if s.spacePressed = true ∧ e.button = 0 then
    ({ s with isDragging := true }, [])
  else if e.altKey = false ∨ e.button ≠ 0 then (s, [])
  else
    match e.pointerPos with
    | none => (s, [])
    | some p =>
      let ic := stageToImageCoords s p.x p.y
      let newSelection : Sel := ⟨ic.x, ic.y, 0, 0, true⟩
      ({ s with isDrawing := true, startPoint := ic, imageSelection := newSelection },
       [.selectionChange ⟨newSelection, some true⟩])

/-- handleMouseMove: no-op on a Rect target; while panning, shifts the
viewport position by the pointer movement; while drawing with Alt still
held, recomputes the selection as the image-space bounding box of the press
point and the current point (min coordinates, absolute deltas) and notifies
the owner with isNewSelection set. -/
def handleMouseMove (s : ViewerState) (e : MouseEvt) :
    ViewerState × List Notification :=
  if e.targetIsRect = true then (s, [])
  else if s.isDragging = true ∧ s.imageLoaded = true then
    ({ s with position := ⟨s.position.x + e.movementX, s.position.y + e.movementY⟩ }, [])
  else if s.isDrawing = false ∨ s.imageLoaded = false ∨ e.altKey = false then (s, [])
  else
    match e.pointerPos with
    | none => (s, [])
    | some p =>
      let ic := stageToImageCoords s p.x p.y
      let newSelection : Sel :=
        ⟨min s.startPoint.x ic.x, min s.startPoint.y ic.y,
         |ic.x - s.startPoint.x|, |ic.y - s.startPoint.y|, true⟩
      ({ s with imageSelection := newSelection },
       [.selectionChange ⟨newSelection, some true⟩])

/-- handleMouseUp: no-op on a Rect target; ends panning, else ends a draw
gesture (the selection keeps its last geometry and stays visible). -/
def handleMouseUp (s : ViewerState) (e : MouseEvt) :
    ViewerState × List Notification :=
  if e.targetIsRect = true then (s, [])
  else if s.isDragging = true then ({ s with isDragging := false }, [])
  else if s.isDrawing = false ∨ s.imageLoaded = false then (s, [])
  else ({ s with isDrawing := false }, [])

/-- handleWheel: only acts when Ctrl is held and an image is loaded; the new
scale is scale * 1.1 for a negative deltaY and scale / 1.1 otherwise, then
clamped to the interval from 0.1 to 5. -/
def handleWheel (s : ViewerState) (ctrl : Bool) (deltaY : ℚ) : ViewerState :=
  if ctrl = false then s
  else if s.imageLoaded = false then s
  else
    let newScale := if deltaY < 0 then s.scale * (11/10) else s.scale / (11/10)
    let boundedScale := max (1/10) (min 5 newScale)
    { s with scale := boundedScale }

/-- handleMarkerClick: clicking a marker replaces the selection with the
zeroed invisible selection, notifies the owner of that selection change,
and then notifies a focus change: deselect when the clicked marker was
already focused, else focus the clicked marker.  The focused marker id is a
prop owned by the page, so it is passed in. -/
def handleMarkerClick (s : ViewerState) (selectedMarkerId : Option String)
    (id : String) : ViewerState × List Notification :=
  let newSelection : Sel := ⟨0, 0, 0, 0, false⟩
  ({ s with imageSelection := newSelection },
   [.selectionChange ⟨newSelection, none⟩,
    .markerSelect (if selectedMarkerId = some id then none else some id)])

/-- handleMarkerDragStart: without Ctrl the drag is stopped at once
(stopDrag) and nothing is emitted; with Ctrl the drag proceeds and, when the
dragged marker is not already focused, a focus change is emitted.  The
returned Bool says whether the drag proceeds. -/
def handleMarkerDragStart (ctrl : Bool) (selectedMarkerId : Option String)
    (markerId : String) : Bool × List Notification :=
  if ctrl = false then (false, [])
  else
    (true,
     if selectedMarkerId ≠ some markerId then [.markerSelect (some markerId)] else [])

/-- handleMarkerDragEnd: converts the dragged shape's final screen-space
geometry back to image space, dividing positions relative to the viewport
origin and sizes by the scale, and emits one onMarkerMove call. -/
def handleMarkerDragEnd (s : ViewerState) (markerId : String)
    (shapeX shapeY shapeW shapeH : ℚ) : List Notification :=
  [.markerMove markerId ((shapeX - s.position.x) / s.scale)
    ((shapeY - s.position.y) / s.scale) (shapeW / s.scale) (shapeH / s.scale)]

/-- handleSelectionDragStart: without Ctrl the drag is stopped at once
(stopDrag) and nothing is emitted; with Ctrl the drag proceeds. -/
def handleSelectionDragStart (ctrl : Bool) : Bool × List Notification :=
  if ctrl = false then (false, []) else (true, [])

/-- handleSelectionDragEnd: converts the dragged selection shape's final
screen position back to image space, keeps the stored selection width and
height, marks the selection visible, emits one onSelectionChange call with
no isNewSelection flag, and stores the same record internally. -/
def handleSelectionDragEnd (s : ViewerState) (shapeX shapeY : ℚ) :
    ViewerState × List Notification :=
  let x := (shapeX - s.position.x) / s.scale
  let y := (shapeY - s.position.y) / s.scale
  let newSelection : Sel :=
    ⟨x, y, s.imageSelection.width, s.imageSelection.height, true⟩
  ({ s with imageSelection := newSelection },
   [.selectionChange ⟨newSelection, none⟩])

/-- The field-wise difference test of the selection-prop sync effect:
true when any of x, y, width, height, visible differ. -/
def selPropDiffers (p q : Sel) : Prop :=
  p.x ≠ q.x ∨ p.y ≠ q.y ∨ p.width ≠ q.width ∨ p.height ≠ q.height ∨
    p.visible ≠ q.visible

instance (p q : Sel) : Decidable (selPropDiffers p q) := by
  unfold selPropDiffers; infer_instance

/-- The useEffect synchronizing the internal imageSelection with the
selection prop: when a prop value is supplied and differs field-wise, the
internal selection is overwritten with it; when supplied and equal, nothing
happens; when no value is supplied and the internal selection is visible,
only its visible flag is forced to false.  The effect emits no
notifications on any path (the empty list). -/
def syncSelectionEffect (selectionProp : Option Sel) (s : ViewerState) :
    ViewerState × List Notification :=
  match selectionProp with
  | some p =>
    if selPropDiffers p s.imageSelection
    then ({ s with imageSelection := ⟨p.x, p.y, p.width, p.height, p.visible⟩ }, [])
    else (s, [])
  | none =>
    if s.imageSelection.visible = true
    then ({ s with imageSelection := { s.imageSelection with visible := false } }, [])
    else (s, [])

/-- Key-down handler for the space key: records that space is held. -/
def handleKeyDownSpace (s : ViewerState) : ViewerState :=
  { s with spacePressed := true }

/-- Key-up handler for the space key: releases the flag and, when a pan was
in progress, stops it. -/
def handleKeyUpSpace (s : ViewerState) : ViewerState :=
  let s1 := { s with spacePressed := false }
  if s1.isDragging = true then { s1 with isDragging := false } else s1

/-- Key-up handler for the Alt key: when a draw gesture is in progress it
is ended (the selection geometry is frozen at its last value). -/
def handleKeyUpAlt (s : ViewerState) : ViewerState :=
  if s.isDrawing = true then { s with isDrawing := false } else s

/-- A transform bounding box as the Transformer sees it (screen space). -/
structure Box where
  x : ℚ
  y : ℚ
  width : ℚ
  height : ℚ
deriving DecidableEq, Repr

/-- The Transformer boundBoxFunc: a requested box whose width or height is
strictly below 5 * scale screen pixels is rejected and the previous box is
kept; otherwise the requested box is accepted. -/
def boundBoxFunc (scale : ℚ) (oldBox newBox : Box) : Box :=
  let minSize := 5 * scale
  if newBox.width < minSize ∨ newBox.height < minSize then oldBox else newBox

/-- The Transformer rotateEnabled prop: rotation is disabled. -/
def transformerRotateEnabled : Bool := false

/-- The Transformer keepRatio prop: the aspect ratio is not locked. -/
def transformerKeepRatio : Bool := false

/-- The state owned by ImageMarkerPage: the marker collection, the canonical
selection passed down as the selection prop, and the focused marker id. -/
structure PageState where
  markers : List Marker
  selection : Sel
  selectedMarkerId : Option String
deriving DecidableEq, Repr

/-- The page's handleSelectionChange: stores the incoming selection and,
only when it is visible and flagged as a new selection, clears the focused
marker. -/
def handleSelectionChange (p : PageState) (c : SelChangePayload) : PageState :=
  { p with
      selection := c.sel
      selectedMarkerId :=
        if c.sel.visible = true ∧ c.isNewSelection = some true then none
        else p.selectedMarkerId }

/-- The page's handleUpdateMarker restricted to geometry, as
handleMarkerMove calls it: replaces the geometry of the marker with the
given id, leaving other markers untouched. -/
def handleMarkerMove (p : PageState) (id : String) (x y w h : ℚ) : PageState :=
  { p with markers := p.markers.map fun m =>
      if m.id = id then { m with x := x, y := y, width := w, height := h } else m }

/-- Routing of one viewer notification into the page's handlers:
onSelectionChange is handleSelectionChange, onMarkerSelect is
setSelectedMarkerId, onMarkerMove is handleMarkerMove. -/
def pageApplyNotification (p : PageState) : Notification → PageState
  | .selectionChange c => handleSelectionChange p c
  | .markerSelect id => { p with selectedMarkerId := id }
  | .markerMove id x y w h => handleMarkerMove p id x y w h

/-- Routing of a list of notifications, in emission order. -/
def pageApplyAll (p : PageState) (ns : List Notification) : PageState :=
  ns.foldl pageApplyNotification p

/-- The combined system: the viewer component state and the page state. -/
structure System where
  viewer : ViewerState
  page : PageState
deriving DecidableEq, Repr

/-- The engine operations of the combined system.  Pointer events carry the
event record; a marker or selection drag is one composite operation (drag
start with the Ctrl test, then drag end with the net screen displacement dx,
dy applied to the shape's rendered screen position); formClearSelection is
the external selection update issued by the form after saving (selection
cleared to the zeroed invisible record). -/
inductive Event where
  | mouseDown : MouseEvt → Event
  | mouseMove : MouseEvt → Event
  | mouseUp : MouseEvt → Event
  | wheel : Bool → ℚ → Event
  | markerClick : String → Event
  | markerDrag : Bool → String → ℚ → ℚ → Event
  | selectionDrag : Bool → ℚ → ℚ → Event
  | keyDownSpace : Event
  | keyUpSpace : Event
  | keyUpAlt : Event
  | formClearSelection : Event
deriving DecidableEq, Repr

/-- One operation applied to the combined system: the viewer handler runs,
its notifications are routed into the page's handlers, and the pair of the
new system and the emitted notifications is returned.  Marker events only
fire for a rendered marker (one whose id is in the collection, with the
stage mounted), selection drags only for a rendered (visible) selection;
drag-end geometry is the rendered screen geometry shifted by the drag
displacement. -/
def applyEvent (sys : System) : Event → System × List Notification
  | .mouseDown e =>
    let r := handleMouseDown sys.viewer e
    (⟨r.1, pageApplyAll sys.page r.2⟩, r.2)
  | .mouseMove e =>
    let r := handleMouseMove sys.viewer e
    (⟨r.1, pageApplyAll sys.page r.2⟩, r.2)
  | .mouseUp e =>
    let r := handleMouseUp sys.viewer e
    (⟨r.1, pageApplyAll sys.page r.2⟩, r.2)
  | .wheel ctrl dy => (⟨handleWheel sys.viewer ctrl dy, sys.page⟩, [])
  | .markerClick id =>
    if sys.viewer.imageLoaded = true ∧
        (sys.page.markers.find? (fun m => m.id = id)).isSome then
      let r := handleMarkerClick sys.viewer sys.page.selectedMarkerId id
      (⟨r.1, pageApplyAll sys.page r.2⟩, r.2)
    else (sys, [])
  | .markerDrag ctrl id dx dy =>
    if sys.viewer.imageLoaded = true then
      match sys.page.markers.find? (fun m => m.id = id) with
      | some m =>
        let start := handleMarkerDragStart ctrl sys.page.selectedMarkerId id
        if start.1 = true then
          let shapeX := sys.viewer.position.x + m.x * sys.viewer.scale + dx
          let shapeY := sys.viewer.position.y + m.y * sys.viewer.scale + dy
          let ns := start.2 ++ handleMarkerDragEnd sys.viewer id shapeX shapeY
            (m.width * sys.viewer.scale) (m.height * sys.viewer.scale)
          (⟨sys.viewer, pageApplyAll sys.page ns⟩, ns)
        else (sys, [])
      | none => (sys, [])
    else (sys, [])
  | .selectionDrag ctrl dx dy =>
    if sys.viewer.imageLoaded = true ∧ sys.viewer.imageSelection.visible = true then
      let start := handleSelectionDragStart ctrl
      if start.1 = true then
        let shapeX := sys.viewer.position.x + sys.viewer.imageSelection.x * sys.viewer.scale + dx
        let shapeY := sys.viewer.position.y + sys.viewer.imageSelection.y * sys.viewer.scale + dy
        let r := handleSelectionDragEnd sys.viewer shapeX shapeY
        (⟨r.1, pageApplyAll sys.page r.2⟩, r.2)
      else (sys, [])
    else (sys, [])
  | .keyDownSpace => (⟨handleKeyDownSpace sys.viewer, sys.page⟩, [])
  | .keyUpSpace => (⟨handleKeyUpSpace sys.viewer, sys.page⟩, [])
  | .keyUpAlt => (⟨handleKeyUpAlt sys.viewer, sys.page⟩, [])
  | .formClearSelection =>
    let c : SelChangePayload := ⟨⟨0, 0, 0, 0, false⟩, none⟩
    (⟨sys.viewer, handleSelectionChange sys.page c⟩, [.selectionChange c])

/-- Whether a notification list contains a selection change: exactly then
does the page call setSelection, handing the viewer a fresh selection prop
and re-running its sync effect. -/
def hasSelChange (ns : List Notification) : Bool :=
  ns.any fun n => match n with
    | .selectionChange _ => true
    | _ => false

/-- One full step of the combined system: the operation is applied, and
when the selection prop changed the viewer's sync effect runs with the
page's selection as the supplied prop. -/
def step (sys : System) (ev : Event) : System :=
  let r := applyEvent sys ev
  if hasSelChange r.2 = true then
    ⟨(syncSelectionEffect (some r.1.page.selection) r.1.viewer).1, r.1.page⟩
  else r.1

/-- A sequence of operations applied in arrival order. -/
def runEvents (sys : System) (evs : List Event) : System :=
  evs.foldl step sys

/-- A sequence of wheel events (Ctrl flag and deltaY each) applied to the
viewer alone. -/
def runWheel (s : ViewerState) (evs : List (Bool × ℚ)) : ViewerState :=
  evs.foldl (fun st e => handleWheel st e.1 e.2) s

/-- The mutual-exclusion property of claim C1: whenever the canonical
selection is visible, no marker is focused. -/
def mutexOK (sys : System) : Prop :=
  sys.page.selection.visible = true → sys.page.selectedMarkerId = none

/-- Field-wise coherence of the viewer's internal selection with the page's
canonical selection; it holds between events because every internal
selection change is notified upward and every upward change is synced back
down by the sync effect. -/
def cohOK (sys : System) : Prop :=
  sys.viewer.imageSelection = sys.page.selection

/-- The operations of the amended claim C1: every engine operation except a
Ctrl-held marker drag. -/
def eventSafe : Event → Prop
  | .markerDrag ctrl _ _ _ => ctrl = false
  | _ => True

/-- The data of a marker before id allocation, as the form submits it. -/
structure MarkerData where
  name : String
  x : ℚ
  y : ℚ
  width : ℚ
  height : ℚ
  ocrText : Option String
deriving DecidableEq, Repr

/-- The id string handleAddMarker allocates at millisecond clock reading
now: the template marker-(Date.now()). -/
def markerId (now : ℕ) : String := "marker-" ++ toString now

/-- handleAddMarker: builds a new marker whose id is marker- followed by
the current millisecond clock reading (Date.now, an explicit input here),
appends it to the collection, and returns its id. -/
def handleAddMarker (markers : List Marker) (m : MarkerData) (now : ℕ) :
    List Marker × String :=
  let newMarker : Marker :=
    ⟨markerId now, m.name, m.x, m.y, m.width, m.height, m.ocrText⟩
  (markers ++ [newMarker], newMarker.id)

/-- A sequence of handleAddMarker calls (marker data and clock reading for
each), returning the final collection and the returned ids in call
order. -/
def runAddMarkers (markers : List Marker) :
    List (MarkerData × ℕ) → List Marker × List String
  | [] => (markers, [])
  | c :: cs =>
    let r := handleAddMarker markers c.1 c.2
    let rest := runAddMarkers r.1 cs
    (rest.1, r.2 :: rest.2)

/-- Big-endian decimal digit characters of a natural number: the reference
form of what the standard decimal rendering used in marker ids produces. -/
def myDigits (n : ℕ) : List Char :=
  if n / 10 = 0 then [Nat.digitChar (n % 10)]
  else myDigits (n / 10) ++ [Nat.digitChar (n % 10)]
termination_by n
decreasing_by omega

end ImageMarker

namespace ImageMarker

/-- Claim C3: converting a screen point to image space with
stageToImageCoords and mapping it back with the render formula
screen = image * scale + position yields the original point exactly
(rational arithmetic; the floating-point tolerance of the claim is
witnessed by exact equality), for any scale in the valid range. -/
theorem stageToImageCoords_roundTrip (s : ViewerState) (px py : ℚ)
    (hlo : 1/10 ≤ s.scale) (hhi : s.scale ≤ 5) :
    renderScreenCoords s (stageToImageCoords s px py).x
      (stageToImageCoords s px py).y = ⟨px, py⟩ := by
  have hs : s.scale ≠ 0 := by
    have : (0 : ℚ) < s.scale := lt_of_lt_of_le (by norm_num) hlo
    exact ne_of_gt this
  simp only [stageToImageCoords, renderScreenCoords, Point.mk.injEq]
  constructor
  · field_simp
  · field_simp

/-- One wheel event keeps the scale inside the clamp interval. -/
theorem handleWheel_scale_bounds (s : ViewerState) (ctrl : Bool) (dy : ℚ)
    (hlo : 1/10 ≤ s.scale) (hhi : s.scale ≤ 5) :
    1/10 ≤ (handleWheel s ctrl dy).scale ∧ (handleWheel s ctrl dy).scale ≤ 5 := by
  unfold handleWheel
  split_ifs
  · exact ⟨hlo, hhi⟩
  · exact ⟨hlo, hhi⟩
  all_goals exact ⟨le_max_left _ _, max_le (by norm_num) (min_le_left _ _)⟩

/-- Any sequence of wheel events keeps the scale inside the clamp
interval. -/
theorem runWheel_scale_bounds (evs : List (Bool × ℚ)) :
    ∀ s : ViewerState, 1/10 ≤ s.scale → s.scale ≤ 5 →
      1/10 ≤ (runWheel s evs).scale ∧ (runWheel s evs).scale ≤ 5 := by
  induction evs with
  | nil => intro s h1 h2; exact ⟨h1, h2⟩
  | cons e rest ih =>
    intro s h1 h2
    have hb := handleWheel_scale_bounds s e.1 e.2 h1 h2
    simpa only [runWheel, List.foldl_cons] using ih (handleWheel s e.1 e.2) hb.1 hb.2

/-- Claim C2: a Ctrl-held wheel event computes the new scale as
scale * 1.1 for a negative deltaY and scale / 1.1 otherwise, clamped to the
interval from 0.1 to 5; any sequence of wheel events starting from a scale
in that interval keeps the scale in it; and from scale 4.8, six consecutive
Ctrl-held zoom-in events saturate the scale at exactly 5. -/
theorem handleWheel_zoom_clamp (s : ViewerState) (evs : List (Bool × ℚ))
    (dy : ℚ) (hlo : 1/10 ≤ s.scale) (hhi : s.scale ≤ 5) :
    (s.imageLoaded = true → dy < 0 →
      (handleWheel s true dy).scale = max (1/10) (min 5 (s.scale * (11/10)))) ∧
    (s.imageLoaded = true → 0 ≤ dy →
      (handleWheel s true dy).scale = max (1/10) (min 5 (s.scale / (11/10)))) ∧
    (1/10 ≤ (runWheel s evs).scale ∧ (runWheel s evs).scale ≤ 5) ∧
    (runWheel ⟨24/5, ⟨0, 0⟩, ⟨0, 0, 0, 0, false⟩, false, ⟨0, 0⟩, false, false, true⟩
      (List.replicate 6 (true, -1))).scale = 5 := by
  refine ⟨?_, ?_, runWheel_scale_bounds evs s hlo hhi, ?_⟩
  · intro himg hdy
    simp [handleWheel, himg, hdy]
  · intro himg hdy
    simp [handleWheel, himg, not_lt.mpr hdy]
  · norm_num [runWheel, List.replicate, handleWheel, max_def, min_def]

/-- Witness for claim C2 at scale 1 with one Ctrl-held zoom-in event. -/
theorem handleWheel_zoom_clamp_witness :
    (runWheel ⟨24/5, ⟨0, 0⟩, ⟨0, 0, 0, 0, false⟩, false, ⟨0, 0⟩, false, false, true⟩
      (List.replicate 6 (true, -1))).scale = 5 :=
  (handleWheel_zoom_clamp
    ⟨1, ⟨0, 0⟩, ⟨0, 0, 0, 0, false⟩, false, ⟨0, 0⟩, false, false, true⟩
    [(true, -1)] (-1) (by norm_num) (by norm_num)).2.2.2

/-- Claim C4: during a draw gesture (Alt held, pointer resolvable, not
panning), every pointer move replaces the selection by the image-space
bounding box of the press point and the current point (min coordinates,
absolute deltas) and emits one onSelectionChange call with isNewSelection
true; and, concretely, at scale 1 and origin (0, 0) an Alt-drag from screen
(10, 10) to (60, 40) emits onSelectionChange with x 10, y 10, width 50,
height 30, visible true, isNewSelection true on the move. -/
theorem handleMouseMove_draw (s : ViewerState) (e : MouseEvt) (p : Point)
    (htgt : e.targetIsRect = false) (hpan : s.isDragging = false)
    (hdrawing : s.isDrawing = true) (himg : s.imageLoaded = true)
    (halt : e.altKey = true) (hpos : e.pointerPos = some p) :
    (handleMouseMove s e =
      ({ s with imageSelection :=
          ⟨min s.startPoint.x ((p.x - s.position.x) / s.scale),
           min s.startPoint.y ((p.y - s.position.y) / s.scale),
           |(p.x - s.position.x) / s.scale - s.startPoint.x|,
           |(p.y - s.position.y) / s.scale - s.startPoint.y|, true⟩ },
       [.selectionChange
          ⟨⟨min s.startPoint.x ((p.x - s.position.x) / s.scale),
            min s.startPoint.y ((p.y - s.position.y) / s.scale),
            |(p.x - s.position.x) / s.scale - s.startPoint.x|,
            |(p.y - s.position.y) / s.scale - s.startPoint.y|, true⟩, some true⟩])) ∧
    (applyEvent
      (step ⟨⟨1, ⟨0, 0⟩, ⟨0, 0, 0, 0, false⟩, false, ⟨0, 0⟩, false, false, true⟩,
             ⟨[], ⟨0, 0, 0, 0, false⟩, none⟩⟩
        (.mouseDown ⟨false, true, false, 0, 0, 0, some ⟨10, 10⟩⟩))
      (.mouseMove ⟨false, true, false, 0, 0, 0, some ⟨60, 40⟩⟩)).2 =
      [.selectionChange ⟨⟨10, 10, 50, 30, true⟩, some true⟩] := by
  constructor
  · simp [handleMouseMove, htgt, hpan, hdrawing, himg, halt, hpos, stageToImageCoords]
  · norm_num [step, applyEvent, handleMouseDown, handleMouseMove, stageToImageCoords,
      pageApplyAll, pageApplyNotification, handleSelectionChange, hasSelChange,
      syncSelectionEffect, selPropDiffers, List.foldl, List.any, min_def, abs,
      max_def]

/-- Witness for claim C4: one draw move at scale 1, origin (0, 0), press
point (10, 10), pointer at (60, 40). -/
theorem handleMouseMove_draw_witness :
    handleMouseMove ⟨1, ⟨0, 0⟩, ⟨10, 10, 0, 0, true⟩, true, ⟨10, 10⟩, false, false, true⟩
      ⟨false, true, false, 0, 0, 0, some ⟨60, 40⟩⟩ =
      (⟨1, ⟨0, 0⟩, ⟨10, 10, 50, 30, true⟩, true, ⟨10, 10⟩, false, false, true⟩,
       [.selectionChange ⟨⟨10, 10, 50, 30, true⟩, some true⟩]) := by
  have h := (handleMouseMove_draw
    ⟨1, ⟨0, 0⟩, ⟨10, 10, 0, 0, true⟩, true, ⟨10, 10⟩, false, false, true⟩
    ⟨false, true, false, 0, 0, 0, some ⟨60, 40⟩⟩ ⟨60, 40⟩
    rfl rfl rfl rfl rfl rfl).1
  rw [h]
  norm_num [min_def, abs, max_def]

/-- Claim C5: a drag started on a marker or on the visible selection
without Ctrl held is cancelled at once and emits nothing (the system is
unchanged); with Ctrl held, a marker drag with net screen displacement
(dx, dy) at scale s commits an image-space delta of exactly (dx / s, dy / s)
in one onMarkerMove call (sizes unchanged), and a selection drag likewise
commits the delta (dx / s, dy / s) in one onSelectionChange call. -/
theorem markerDrag_modifier_gating (sys : System) (id : String) (m : Marker)
    (dx dy : ℚ)
    (hfind : sys.page.markers.find? (fun mk => mk.id = id) = some m)
    (himg : sys.viewer.imageLoaded = true)
    (hs : sys.viewer.scale ≠ 0) :
    applyEvent sys (.markerDrag false id dx dy) = (sys, []) ∧
    applyEvent sys (.selectionDrag false dx dy) = (sys, []) ∧
    (applyEvent sys (.markerDrag true id dx dy)).2 =
      (if sys.page.selectedMarkerId ≠ some id then [.markerSelect (some id)] else []) ++
      [.markerMove id (m.x + dx / sys.viewer.scale) (m.y + dy / sys.viewer.scale)
        m.width m.height] ∧
    (sys.viewer.imageSelection.visible = true →
      (applyEvent sys (.selectionDrag true dx dy)).2 =
        [.selectionChange ⟨⟨sys.viewer.imageSelection.x + dx / sys.viewer.scale,
          sys.viewer.imageSelection.y + dy / sys.viewer.scale,
          sys.viewer.imageSelection.width, sys.viewer.imageSelection.height, true⟩,
          none⟩]) := by
  have h1 : (sys.viewer.position.x + m.x * sys.viewer.scale + dx -
      sys.viewer.position.x) / sys.viewer.scale = m.x + dx / sys.viewer.scale := by
    field_simp
    ring
  have h2 : (sys.viewer.position.y + m.y * sys.viewer.scale + dy -
      sys.viewer.position.y) / sys.viewer.scale = m.y + dy / sys.viewer.scale := by
    field_simp
    ring
  have h3 : m.width * sys.viewer.scale / sys.viewer.scale = m.width := by
    field_simp
  have h4 : m.height * sys.viewer.scale / sys.viewer.scale = m.height := by
    field_simp
  have h5 : (sys.viewer.position.x + sys.viewer.imageSelection.x * sys.viewer.scale +
      dx - sys.viewer.position.x) / sys.viewer.scale =
      sys.viewer.imageSelection.x + dx / sys.viewer.scale := by
    field_simp
    ring
  have h6 : (sys.viewer.position.y + sys.viewer.imageSelection.y * sys.viewer.scale +
      dy - sys.viewer.position.y) / sys.viewer.scale =
      sys.viewer.imageSelection.y + dy / sys.viewer.scale := by
    field_simp
    ring
  refine ⟨?_, ?_, ?_, ?_⟩
  · simp [applyEvent, himg, hfind, handleMarkerDragStart]
  · simp [applyEvent, handleSelectionDragStart]
  · simp [applyEvent, himg, hfind, handleMarkerDragStart, handleMarkerDragEnd,
      h1, h2, h3, h4]
  · intro hvis
    simp [applyEvent, himg, hvis, handleSelectionDragStart, handleSelectionDragEnd,
      h5, h6]

/-- Witness for claim C5: one marker at (100, 100) size (20, 20), scale 1,
Ctrl-held drag by (5, 7). -/
theorem markerDrag_modifier_gating_witness :
    (applyEvent ⟨⟨1, ⟨0, 0⟩, ⟨0, 0, 0, 0, false⟩, false, ⟨0, 0⟩, false, false, true⟩,
        ⟨[⟨"m1", "A", 100, 100, 20, 20, none⟩], ⟨0, 0, 0, 0, false⟩, none⟩⟩
      (.markerDrag false "m1" 5 7)) =
      (⟨⟨1, ⟨0, 0⟩, ⟨0, 0, 0, 0, false⟩, false, ⟨0, 0⟩, false, false, true⟩,
        ⟨[⟨"m1", "A", 100, 100, 20, 20, none⟩], ⟨0, 0, 0, 0, false⟩, none⟩⟩, []) :=
  (markerDrag_modifier_gating
    ⟨⟨1, ⟨0, 0⟩, ⟨0, 0, 0, 0, false⟩, false, ⟨0, 0⟩, false, false, true⟩,
      ⟨[⟨"m1", "A", 100, 100, 20, 20, none⟩], ⟨0, 0, 0, 0, false⟩, none⟩⟩
    "m1" ⟨"m1", "A", 100, 100, 20, 20, none⟩ 5 7 (by decide) rfl
    (by norm_num)).1

/-- Claim C6: the selection-prop sync effect overwrites the internal
selection when a differing value is supplied, leaves the state unchanged
when an equal value is supplied, forces only the visible flag to false when
no value is supplied and the internal selection is visible, and otherwise
does nothing; on every path it emits no notification, and on every path it
is idempotent. -/
theorem syncSelectionEffect_spec (s : ViewerState) (p : Sel) :
    (selPropDiffers p s.imageSelection →
      syncSelectionEffect (some p) s = ({ s with imageSelection := p }, [])) ∧
    (¬ selPropDiffers p s.imageSelection →
      syncSelectionEffect (some p) s = (s, [])) ∧
    (s.imageSelection.visible = true →
      syncSelectionEffect none s =
        ({ s with imageSelection := { s.imageSelection with visible := false } }, [])) ∧
    (s.imageSelection.visible = false → syncSelectionEffect none s = (s, [])) ∧
    (syncSelectionEffect (some p) (syncSelectionEffect (some p) s).1 =
      ((syncSelectionEffect (some p) s).1, [])) ∧
    (syncSelectionEffect none (syncSelectionEffect none s).1 =
      ((syncSelectionEffect none s).1, [])) := by
  refine ⟨?_, ?_, ?_, ?_, ?_, ?_⟩
  · intro h
    simp [syncSelectionEffect, h]
  · intro h
    simp [syncSelectionEffect, h]
  · intro h
    simp [syncSelectionEffect, h]
  · intro h
    simp [syncSelectionEffect, h]
  · by_cases h : selPropDiffers p s.imageSelection
    · have h1 : syncSelectionEffect (some p) s = ({ s with imageSelection := p }, []) := by
        simp [syncSelectionEffect, h]
      rw [h1]
      simp [syncSelectionEffect, selPropDiffers]
    · have h1 : syncSelectionEffect (some p) s = (s, []) := by
        simp [syncSelectionEffect, h]
      rw [h1]
      simp [syncSelectionEffect, h]
  · by_cases h : s.imageSelection.visible = true
    · have h1 : syncSelectionEffect none s =
          ({ s with imageSelection := { s.imageSelection with visible := false } }, []) := by
        simp [syncSelectionEffect, h]
      rw [h1]
      simp [syncSelectionEffect]
    · have h1 : syncSelectionEffect none s = (s, []) := by
        simp [syncSelectionEffect, h]
      rw [h1]
      simp [syncSelectionEffect, h]

/-- Witness for claim C6: a supplied selection differing from the internal
one overwrites it. -/
theorem syncSelectionEffect_spec_witness :
    syncSelectionEffect (some ⟨1, 2, 3, 4, true⟩)
      ⟨1, ⟨0, 0⟩, ⟨0, 0, 0, 0, false⟩, false, ⟨0, 0⟩, false, false, true⟩ =
      (⟨1, ⟨0, 0⟩, ⟨1, 2, 3, 4, true⟩, false, ⟨0, 0⟩, false, false, true⟩, []) :=
  (syncSelectionEffect_spec
    ⟨1, ⟨0, 0⟩, ⟨0, 0, 0, 0, false⟩, false, ⟨0, 0⟩, false, false, true⟩
    ⟨1, 2, 3, 4, true⟩).1 (by simp [selPropDiffers])

/-- Claim C7: a resize request whose box is strictly smaller than 5 * scale
screen pixels in width or height is rejected by the Transformer bound box
function (the previous box is kept unchanged); otherwise the requested box
is accepted; rotation is disabled and the aspect ratio is not locked. -/
theorem boundBoxFunc_minSize (scale : ℚ) (oldBox newBox : Box) :
    (newBox.width < 5 * scale ∨ newBox.height < 5 * scale →
      boundBoxFunc scale oldBox newBox = oldBox) ∧
    (¬(newBox.width < 5 * scale ∨ newBox.height < 5 * scale) →
      boundBoxFunc scale oldBox newBox = newBox) ∧
    transformerRotateEnabled = false ∧ transformerKeepRatio = false := by
  refine ⟨?_, ?_, rfl, rfl⟩ <;> intro h <;> simp [boundBoxFunc, h]

/-- Witness for claim C7: at scale 1 a requested 4 x 10 box is rejected and
a requested 6 x 7 box is accepted. -/
theorem boundBoxFunc_minSize_witness :
    boundBoxFunc 1 ⟨0, 0, 10, 10⟩ ⟨0, 0, 4, 10⟩ = ⟨0, 0, 10, 10⟩ ∧
    boundBoxFunc 1 ⟨0, 0, 10, 10⟩ ⟨0, 0, 6, 7⟩ = ⟨0, 0, 6, 7⟩ :=
  ⟨(boundBoxFunc_minSize 1 ⟨0, 0, 10, 10⟩ ⟨0, 0, 4, 10⟩).1 (by norm_num),
   (boundBoxFunc_minSize 1 ⟨0, 0, 10, 10⟩ ⟨0, 0, 6, 7⟩).2.1 (by norm_num)⟩

/-- Claim C8: a pan move (pointer move while panning) changes only the
viewport origin, shifting it by the movement deltas; the page state (all
markers and the canonical selection) and the viewer's stored selection,
scale, and flags are unchanged. -/
theorem pan_moves_only_origin (sys : System) (e : MouseEvt)
    (htgt : e.targetIsRect = false) (hdrag : sys.viewer.isDragging = true)
    (himg : sys.viewer.imageLoaded = true) :
    step sys (.mouseMove e) =
      ⟨{ sys.viewer with position :=
          ⟨sys.viewer.position.x + e.movementX, sys.viewer.position.y + e.movementY⟩ },
        sys.page⟩ := by
  simp [step, applyEvent, handleMouseMove, htgt, hdrag, himg, hasSelChange,
    pageApplyAll]

/-- Witness for claim C8: a pan by (3, -2) from origin (5, 6) with a marker
and a visible selection present. -/
theorem pan_moves_only_origin_witness :
    step ⟨⟨2, ⟨5, 6⟩, ⟨1, 1, 2, 2, true⟩, false, ⟨0, 0⟩, true, true, true⟩,
        ⟨[⟨"m1", "A", 100, 100, 20, 20, none⟩], ⟨1, 1, 2, 2, true⟩, none⟩⟩
      (.mouseMove ⟨false, false, false, 0, 3, -2, none⟩) =
      ⟨⟨2, ⟨8, 4⟩, ⟨1, 1, 2, 2, true⟩, false, ⟨0, 0⟩, true, true, true⟩,
        ⟨[⟨"m1", "A", 100, 100, 20, 20, none⟩], ⟨1, 1, 2, 2, true⟩, none⟩⟩ := by
  have h := pan_moves_only_origin
    ⟨⟨2, ⟨5, 6⟩, ⟨1, 1, 2, 2, true⟩, false, ⟨0, 0⟩, true, true, true⟩,
      ⟨[⟨"m1", "A", 100, 100, 20, 20, none⟩], ⟨1, 1, 2, 2, true⟩, none⟩⟩
    ⟨false, false, false, 0, 3, -2, none⟩ rfl rfl rfl
  rw [h]
  norm_num

/-- Claim C10: committing a Ctrl-held drag of the visible selection changes
only its x and y (by the image-space delta), keeping width, height, and
visible true exactly, both in the internal viewer selection and in the
page's canonical selection, and the single onSelectionChange notification
carries no isNewSelection flag. -/
theorem selectionDragEnd_moveOnly (sys : System) (dx dy : ℚ)
    (hvis : sys.viewer.imageSelection.visible = true)
    (himg : sys.viewer.imageLoaded = true)
    (hs : sys.viewer.scale ≠ 0) :
    (step sys (.selectionDrag true dx dy)).viewer.imageSelection =
      ⟨sys.viewer.imageSelection.x + dx / sys.viewer.scale,
       sys.viewer.imageSelection.y + dy / sys.viewer.scale,
       sys.viewer.imageSelection.width, sys.viewer.imageSelection.height, true⟩ ∧
    (step sys (.selectionDrag true dx dy)).page.selection =
      ⟨sys.viewer.imageSelection.x + dx / sys.viewer.scale,
       sys.viewer.imageSelection.y + dy / sys.viewer.scale,
       sys.viewer.imageSelection.width, sys.viewer.imageSelection.height, true⟩ ∧
    (applyEvent sys (.selectionDrag true dx dy)).2 =
      [.selectionChange ⟨⟨sys.viewer.imageSelection.x + dx / sys.viewer.scale,
        sys.viewer.imageSelection.y + dy / sys.viewer.scale,
        sys.viewer.imageSelection.width, sys.viewer.imageSelection.height, true⟩,
        none⟩] := by
  have h5 : (sys.viewer.position.x + sys.viewer.imageSelection.x * sys.viewer.scale +
      dx - sys.viewer.position.x) / sys.viewer.scale =
      sys.viewer.imageSelection.x + dx / sys.viewer.scale := by
    field_simp
    ring
  have h6 : (sys.viewer.position.y + sys.viewer.imageSelection.y * sys.viewer.scale +
      dy - sys.viewer.position.y) / sys.viewer.scale =
      sys.viewer.imageSelection.y + dy / sys.viewer.scale := by
    field_simp
    ring
  refine ⟨?_, ?_, ?_⟩ <;>
    simp [step, applyEvent, himg, hvis, handleSelectionDragStart,
      handleSelectionDragEnd, h5, h6, hasSelChange, pageApplyAll,
      pageApplyNotification, handleSelectionChange, syncSelectionEffect,
      selPropDiffers]

/-- Witness for claim C10: selection at (1, 1) size (2, 3), scale 1,
Ctrl-held drag by (4, 5). -/
theorem selectionDragEnd_moveOnly_witness :
    (step ⟨⟨1, ⟨0, 0⟩, ⟨1, 1, 2, 3, true⟩, false, ⟨0, 0⟩, false, false, true⟩,
        ⟨[], ⟨1, 1, 2, 3, true⟩, none⟩⟩
      (.selectionDrag true 4 5)).viewer.imageSelection = ⟨5, 6, 2, 3, true⟩ := by
  have h := (selectionDragEnd_moveOnly
    ⟨⟨1, ⟨0, 0⟩, ⟨1, 1, 2, 3, true⟩, false, ⟨0, 0⟩, false, false, true⟩,
      ⟨[], ⟨1, 1, 2, 3, true⟩, none⟩⟩ 4 5 rfl rfl (by norm_num)).1
  rw [h]
  norm_num

/-- Witness for claim C3 at a concrete state: scale 2, position (3, 4),
screen point (7, 9). -/
theorem stageToImageCoords_roundTrip_witness :
    renderScreenCoords ⟨2, ⟨3, 4⟩, ⟨0, 0, 0, 0, false⟩, false, ⟨0, 0⟩, false, false, true⟩
      (stageToImageCoords ⟨2, ⟨3, 4⟩, ⟨0, 0, 0, 0, false⟩, false, ⟨0, 0⟩, false, false, true⟩ 7 9).x
      (stageToImageCoords ⟨2, ⟨3, 4⟩, ⟨0, 0, 0, 0, false⟩, false, ⟨0, 0⟩, false, false, true⟩ 7 9).y
      = ⟨7, 9⟩ :=
  stageToImageCoords_roundTrip _ 7 9 (by norm_num) (by norm_num)

end ImageMarker

namespace ImageMarker


theorem eq_of_not_selPropDiffers (p q : Sel) (h : ¬ selPropDiffers p q) : q = p := by
  unfold selPropDiffers at h
  push_neg at h
  obtain ⟨h1, h2, h3, h4, h5⟩ := h
  cases hq : q with
  | mk a b c d e =>
    cases hp : p with
    | mk a2 b2 c2 d2 e2 => simp_all

theorem sync_coh (p : Sel) (v : ViewerState) :
    (syncSelectionEffect (some p) v).1.imageSelection = p := by
  simp only [syncSelectionEffect]
  split_ifs with h
  · rfl
  · exact eq_of_not_selPropDiffers p v.imageSelection h

theorem inv_of_applyEvent_nil (sys : System) (ev : Event) (v : ViewerState)
    (h : applyEvent sys ev = (⟨v, sys.page⟩, []))
    (hsel : v.imageSelection = sys.viewer.imageSelection)
    (hcoh : cohOK sys) (hmutex : mutexOK sys) :
    cohOK (step sys ev) ∧ mutexOK (step sys ev) := by
  have hstep : step sys ev = ⟨v, sys.page⟩ := by
    simp [step, h, hasSelChange]
  rw [hstep]
  constructor
  · show v.imageSelection = sys.page.selection
    rw [hsel]
    exact hcoh
  · exact hmutex

theorem inv_of_applyEvent_sc (sys : System) (ev : Event)
    (hmu : mutexOK (applyEvent sys ev).1)
    (hns : hasSelChange (applyEvent sys ev).2 = true) :
    cohOK (step sys ev) ∧ mutexOK (step sys ev) := by
  have hstep : step sys ev =
      ⟨(syncSelectionEffect (some (applyEvent sys ev).1.page.selection)
          (applyEvent sys ev).1.viewer).1, (applyEvent sys ev).1.page⟩ := by
    simp [step, hns]
  rw [hstep]
  constructor
  · exact sync_coh _ _
  · exact hmu



theorem step_preserves_inv (sys : System) (ev : Event)
    (hcoh : cohOK sys) (hmutex : mutexOK sys) (hsafe : eventSafe ev) :
    cohOK (step sys ev) ∧ mutexOK (step sys ev) := by
  cases ev with
  | mouseDown e =>
    by_cases h1 : sys.viewer.imageLoaded = false
    · exact inv_of_applyEvent_nil sys _ sys.viewer
        (by simp [applyEvent, handleMouseDown, h1, pageApplyAll]) rfl hcoh hmutex
    · by_cases h2 : e.targetIsRect = true
      · exact inv_of_applyEvent_nil sys _ sys.viewer
          (by simp [applyEvent, handleMouseDown, h1, h2, pageApplyAll]) rfl hcoh hmutex
      · by_cases h3 : sys.viewer.spacePressed = true ∧ e.button = 0
        · exact inv_of_applyEvent_nil sys _ { sys.viewer with isDragging := true }
            (by simp [applyEvent, handleMouseDown, h1, h2, h3, pageApplyAll]) rfl hcoh hmutex
        · by_cases h4 : e.altKey = false ∨ e.button ≠ 0
          · exact inv_of_applyEvent_nil sys _ sys.viewer
              (by simp [applyEvent, handleMouseDown, h1, h2, h3, h4, pageApplyAll]) rfl hcoh hmutex
          · cases h5 : e.pointerPos with
            | none =>
              exact inv_of_applyEvent_nil sys _ sys.viewer
                (by simp [applyEvent, handleMouseDown, h1, h2, h3, h4, h5, pageApplyAll]) rfl
                hcoh hmutex
            | some p =>
              refine inv_of_applyEvent_sc sys _ ?_ ?_
              · simp [applyEvent, handleMouseDown, h1, h2, h3, h4, h5, pageApplyAll,
                  pageApplyNotification, handleSelectionChange, mutexOK]
              · simp [applyEvent, handleMouseDown, h1, h2, h3, h4, h5, hasSelChange]
  | mouseMove e =>
    by_cases h1 : e.targetIsRect = true
    · exact inv_of_applyEvent_nil sys _ sys.viewer
        (by simp [applyEvent, handleMouseMove, h1, pageApplyAll]) rfl hcoh hmutex
    · by_cases h2 : sys.viewer.isDragging = true ∧ sys.viewer.imageLoaded = true
      · exact inv_of_applyEvent_nil sys _
          { sys.viewer with position :=
              ⟨sys.viewer.position.x + e.movementX, sys.viewer.position.y + e.movementY⟩ }
          (by simp [applyEvent, handleMouseMove, h1, h2, pageApplyAll]) rfl hcoh hmutex
      · by_cases h3 : sys.viewer.isDrawing = false ∨ sys.viewer.imageLoaded = false ∨
            e.altKey = false
        · exact inv_of_applyEvent_nil sys _ sys.viewer
            (by simp [applyEvent, handleMouseMove, h1, h2, h3, pageApplyAll]) rfl hcoh hmutex
        · cases h5 : e.pointerPos with
          | none =>
            exact inv_of_applyEvent_nil sys _ sys.viewer
              (by simp [applyEvent, handleMouseMove, h1, h2, h3, h5, pageApplyAll]) rfl
              hcoh hmutex
          | some p =>
            refine inv_of_applyEvent_sc sys _ ?_ ?_
            · simp [applyEvent, handleMouseMove, h1, h2, h3, h5, pageApplyAll,
                pageApplyNotification, handleSelectionChange, mutexOK]
            · simp [applyEvent, handleMouseMove, h1, h2, h3, h5, hasSelChange]
  | mouseUp e =>
    by_cases h1 : e.targetIsRect = true
    · exact inv_of_applyEvent_nil sys _ sys.viewer
        (by simp [applyEvent, handleMouseUp, h1, pageApplyAll]) rfl hcoh hmutex
    · by_cases h2 : sys.viewer.isDragging = true
      · exact inv_of_applyEvent_nil sys _ { sys.viewer with isDragging := false }
          (by simp [applyEvent, handleMouseUp, h1, h2, pageApplyAll]) rfl hcoh hmutex
      · by_cases h3 : sys.viewer.isDrawing = false ∨ sys.viewer.imageLoaded = false
        · exact inv_of_applyEvent_nil sys _ sys.viewer
            (by simp [applyEvent, handleMouseUp, h1, h2, h3, pageApplyAll]) rfl hcoh hmutex
        · exact inv_of_applyEvent_nil sys _ { sys.viewer with isDrawing := false }
            (by simp [applyEvent, handleMouseUp, h1, h2, h3, pageApplyAll]) rfl hcoh hmutex
  | wheel ctrl dy =>
    refine inv_of_applyEvent_nil sys _ (handleWheel sys.viewer ctrl dy)
      (by simp [applyEvent]) ?_ hcoh hmutex
    unfold handleWheel
    split_ifs <;> rfl
  | markerClick id =>
    by_cases h1 : sys.viewer.imageLoaded = true ∧
        (sys.page.markers.find? (fun m => m.id = id)).isSome = true
    · refine inv_of_applyEvent_sc sys _ ?_ ?_
      · simp [applyEvent, h1, handleMarkerClick, pageApplyAll,
          pageApplyNotification, handleSelectionChange, mutexOK]
      · simp [applyEvent, h1, handleMarkerClick, hasSelChange]
    · refine inv_of_applyEvent_nil sys _ sys.viewer ?_ rfl hcoh hmutex
      simp only [applyEvent]
      rw [if_neg h1]
  | markerDrag ctrl id dx dy =>
    have hctrl : ctrl = false := hsafe
    by_cases h1 : sys.viewer.imageLoaded = true
    · cases h2 : sys.page.markers.find? (fun m => m.id = id) with
      | none =>
        exact inv_of_applyEvent_nil sys _ sys.viewer
          (by simp [applyEvent, h1, h2, pageApplyAll]) rfl hcoh hmutex
      | some m =>
        exact inv_of_applyEvent_nil sys _ sys.viewer
          (by simp [applyEvent, h1, h2, hctrl, handleMarkerDragStart, pageApplyAll]) rfl
          hcoh hmutex
    · exact inv_of_applyEvent_nil sys _ sys.viewer
        (by simp [applyEvent, h1, pageApplyAll]) rfl hcoh hmutex
  | selectionDrag ctrl dx dy =>
    by_cases h1 : sys.viewer.imageLoaded = true ∧ sys.viewer.imageSelection.visible = true
    · by_cases hctrl : ctrl = false
      · exact inv_of_applyEvent_nil sys _ sys.viewer
          (by simp [applyEvent, h1, hctrl, handleSelectionDragStart, pageApplyAll]) rfl hcoh hmutex
      · have hc : ctrl = true := by
          cases ctrl
          · exact absurd rfl hctrl
          · rfl
        have hnone : sys.page.selectedMarkerId = none := by
          apply hmutex
          have hc2 : sys.viewer.imageSelection = sys.page.selection := hcoh
          rw [← hc2]
          exact h1.2
        refine inv_of_applyEvent_sc sys _ ?_ ?_
        · simp [applyEvent, h1, hc, handleSelectionDragStart, handleSelectionDragEnd,
            pageApplyAll, pageApplyNotification, handleSelectionChange, mutexOK, hnone]
        · simp [applyEvent, h1, hc, handleSelectionDragStart, handleSelectionDragEnd,
            hasSelChange]
    · exact inv_of_applyEvent_nil sys _ sys.viewer
        (by simp [applyEvent, h1, pageApplyAll]) rfl hcoh hmutex
  | keyDownSpace =>
    exact inv_of_applyEvent_nil sys _ { sys.viewer with spacePressed := true }
      (by simp [applyEvent, handleKeyDownSpace, pageApplyAll]) rfl hcoh hmutex
  | keyUpSpace =>
    refine inv_of_applyEvent_nil sys _ (handleKeyUpSpace sys.viewer)
      (by simp [applyEvent]) ?_ hcoh hmutex
    simp only [handleKeyUpSpace]
    split_ifs <;> rfl
  | keyUpAlt =>
    refine inv_of_applyEvent_nil sys _ (handleKeyUpAlt sys.viewer)
      (by simp [applyEvent]) ?_ hcoh hmutex
    unfold handleKeyUpAlt
    split_ifs <;> rfl
  | formClearSelection =>
    refine inv_of_applyEvent_sc sys _ ?_ ?_
    · simp [applyEvent, handleSelectionChange, mutexOK]
    · simp [applyEvent, hasSelChange]

theorem runEvents_mutex (evs : List Event) :
    ∀ sys : System, cohOK sys → mutexOK sys → (∀ e ∈ evs, eventSafe e) →
      cohOK (runEvents sys evs) ∧ mutexOK (runEvents sys evs) := by
  induction evs with
  | nil => intro sys hc hm _; exact ⟨hc, hm⟩
  | cons e rest ih =>
    intro sys hc hm hsafe
    have h1 := step_preserves_inv sys e hc hm (hsafe e (List.mem_cons_self e rest))
    simpa only [runEvents, List.foldl_cons] using
      ih (step sys e) h1.1 h1.2 (fun x hx => hsafe x (List.mem_cons_of_mem e hx))

/-- Claim C1 (amended): along every sequence of engine operations other
than Ctrl-held marker drags (draw gestures, pans, zooms, marker clicks,
selection drags, non-Ctrl marker drags, key events, external selection
updates), starting from a state where the viewer and page selections agree
and the invariant holds, the state in which the canonical selection is
visible while a marker is focused is never reached. -/
theorem mutex_invariant (sys : System) (evs : List Event)
    (hcoh : cohOK sys) (hmutex : mutexOK sys)
    (hsafe : ∀ e ∈ evs, eventSafe e) :
    ¬((runEvents sys evs).page.selection.visible = true ∧
      (runEvents sys evs).page.selectedMarkerId ≠ none) := by
  intro hcontra
  exact hcontra.2 ((runEvents_mutex evs sys hcoh hmutex hsafe).2 hcontra.1)

/-- Witness for claim C1: a draw gesture followed by a marker click never
reaches the forbidden state. -/
theorem mutex_invariant_witness :
    ¬((runEvents ⟨⟨1, ⟨0, 0⟩, ⟨0, 0, 0, 0, false⟩, false, ⟨0, 0⟩, false, false, true⟩,
        ⟨[⟨"m1", "A", 100, 100, 20, 20, none⟩], ⟨0, 0, 0, 0, false⟩, none⟩⟩
      [.mouseDown ⟨false, true, false, 0, 0, 0, some ⟨10, 10⟩⟩,
       .markerClick "m1"]).page.selection.visible = true ∧
      (runEvents ⟨⟨1, ⟨0, 0⟩, ⟨0, 0, 0, 0, false⟩, false, ⟨0, 0⟩, false, false, true⟩,
        ⟨[⟨"m1", "A", 100, 100, 20, 20, none⟩], ⟨0, 0, 0, 0, false⟩, none⟩⟩
      [.mouseDown ⟨false, true, false, 0, 0, 0, some ⟨10, 10⟩⟩,
       .markerClick "m1"]).page.selectedMarkerId ≠ none) :=
  mutex_invariant
    ⟨⟨1, ⟨0, 0⟩, ⟨0, 0, 0, 0, false⟩, false, ⟨0, 0⟩, false, false, true⟩,
      ⟨[⟨"m1", "A", 100, 100, 20, 20, none⟩], ⟨0, 0, 0, 0, false⟩, none⟩⟩
    [.mouseDown ⟨false, true, false, 0, 0, 0, some ⟨10, 10⟩⟩, .markerClick "m1"]
    rfl (by intro h; cases h)
    (by
      intro e he
      simp only [List.mem_cons, List.mem_singleton] at he
      rcases he with rfl | rfl | h
      · trivial
      · trivial
      · cases h)

/-- Counterexample to claim C1 as stated: with one marker present, drawing
a selection with Alt (mouse down, move, up) and then starting a Ctrl-held
drag on the marker reaches a state where the selection is visible and the
marker is focused at the same time, because handleMarkerDragStart selects
the dragged marker without hiding the selection. -/
theorem mutex_violation_reachable :
    (runEvents ⟨⟨1, ⟨0, 0⟩, ⟨0, 0, 0, 0, false⟩, false, ⟨0, 0⟩, false, false, true⟩,
        ⟨[⟨"m1", "A", 100, 100, 20, 20, none⟩], ⟨0, 0, 0, 0, false⟩, none⟩⟩
      [.mouseDown ⟨false, true, false, 0, 0, 0, some ⟨10, 10⟩⟩,
       .mouseMove ⟨false, true, false, 0, 0, 0, some ⟨60, 40⟩⟩,
       .mouseUp ⟨false, false, false, 0, 0, 0, none⟩,
       .markerDrag true "m1" 5 5]).page.selection.visible = true ∧
    (runEvents ⟨⟨1, ⟨0, 0⟩, ⟨0, 0, 0, 0, false⟩, false, ⟨0, 0⟩, false, false, true⟩,
        ⟨[⟨"m1", "A", 100, 100, 20, 20, none⟩], ⟨0, 0, 0, 0, false⟩, none⟩⟩
      [.mouseDown ⟨false, true, false, 0, 0, 0, some ⟨10, 10⟩⟩,
       .mouseMove ⟨false, true, false, 0, 0, 0, some ⟨60, 40⟩⟩,
       .mouseUp ⟨false, false, false, 0, 0, 0, none⟩,
       .markerDrag true "m1" 5 5]).page.selectedMarkerId = some "m1" := by
  norm_num [runEvents, step, applyEvent, handleMouseDown, handleMouseMove, handleMouseUp,
    handleMarkerDragStart, handleMarkerDragEnd, stageToImageCoords, pageApplyAll,
    pageApplyNotification, handleSelectionChange, handleMarkerMove, hasSelChange,
    syncSelectionEffect, selPropDiffers, List.foldl, List.find?, min_def, abs, max_def]



theorem toDigitsCore_eq_myDigits (fuel : ℕ) :
    ∀ (n : ℕ) (ds : List Char), n < fuel →
      Nat.toDigitsCore 10 fuel n ds = myDigits n ++ ds := by
  induction fuel with
  | zero => intro n ds h; exact absurd h (Nat.not_lt_zero n)
  | succ f ih =>
    intro n ds h
    by_cases h0 : n / 10 = 0
    · rw [myDigits]
      simp [Nat.toDigitsCore, h0]
    · rw [myDigits]
      have hlt : n / 10 < f := by omega
      simp only [Nat.toDigitsCore, h0, if_neg, if_false]
      rw [ih (n / 10) (Nat.digitChar (n % 10) :: ds) hlt]
      simp [h0]

theorem toDigits_eq_myDigits (n : ℕ) : Nat.toDigits 10 n = myDigits n := by
  have h := toDigitsCore_eq_myDigits (n + 1) n [] (Nat.lt_succ_self n)
  simpa [Nat.toDigits] using h

theorem myDigits_ne_nil (n : ℕ) : myDigits n ≠ [] := by
  rw [myDigits]
  split_ifs <;> simp

theorem digitChar_inj_lt10 :
    ∀ a < 10, ∀ b < 10, Nat.digitChar a = Nat.digitChar b → a = b := by decide

theorem myDigits_injective (n : ℕ) : ∀ m : ℕ, myDigits n = myDigits m → n = m := by
  induction n using Nat.strong_induction_on with
  | _ n ih =>
    intro m h
    rw [myDigits] at h
    by_cases h1 : n / 10 = 0
    · rw [if_pos h1] at h
      rw [myDigits] at h
      by_cases h2 : m / 10 = 0
      · rw [if_pos h2] at h
        simp only [List.cons.injEq] at h
        have := digitChar_inj_lt10 (n % 10) (by omega) (m % 10) (by omega) h.1
        omega
      · rw [if_neg h2] at h
        have hlen := congrArg List.length h
        simp only [List.length_cons, List.length_append, List.length_singleton,
          List.length_nil] at hlen
        have hnil : myDigits (m / 10) = [] := by
          have : (myDigits (m / 10)).length = 0 := by omega
          exact List.length_eq_zero.mp this
        exact absurd hnil (myDigits_ne_nil (m / 10))
    · rw [if_neg h1] at h
      nth_rewrite 2 [myDigits] at h
      by_cases h2 : m / 10 = 0
      · rw [if_pos h2] at h
        have hlen := congrArg List.length h
        simp only [List.length_cons, List.length_append, List.length_singleton,
          List.length_nil] at hlen
        have hnil : myDigits (n / 10) = [] := by
          have : (myDigits (n / 10)).length = 0 := by omega
          exact List.length_eq_zero.mp this
        exact absurd hnil (myDigits_ne_nil (n / 10))
      · rw [if_neg h2] at h
        have happ := List.append_inj' h (by simp)
        have hdiv : n / 10 = m / 10 := ih (n / 10) (by omega) (m / 10) happ.1
        have hmod := digitChar_inj_lt10 (n % 10) (by omega) (m % 10) (by omega)
          (by simpa using happ.2)
        omega

theorem repr_injective (n m : ℕ) (h : Nat.repr n = Nat.repr m) : n = m := by
  apply myDigits_injective
  rw [← toDigits_eq_myDigits, ← toDigits_eq_myDigits]
  exact congrArg String.data h

theorem markerId_injective (t u : ℕ) (h : markerId t = markerId u) : t = u := by
  apply repr_injective
  have hd := congrArg String.data h
  have ht : (markerId t).data = "marker-".data ++ (Nat.repr t).data := rfl
  have hu : (markerId u).data = "marker-".data ++ (Nat.repr u).data := rfl
  rw [ht, hu] at hd
  have hdata : (Nat.repr t).data = (Nat.repr u).data := List.append_cancel_left hd
  show Nat.repr t = Nat.repr u
  cases hrt : Nat.repr t with
  | mk d1 =>
    cases hru : Nat.repr u with
    | mk d2 =>
      rw [hrt, hru] at hdata
      exact congrArg String.mk (by simpa using hdata)

theorem runAddMarkers_ids (calls : List (MarkerData × ℕ)) :
    ∀ markers : List Marker,
      (runAddMarkers markers calls).2 = calls.map (fun c => markerId c.2) := by
  induction calls with
  | nil => intro markers; rfl
  | cons c cs ih =>
    intro markers
    simp only [runAddMarkers, List.map_cons, List.cons.injEq]
    exact ⟨rfl, ih _⟩

/-- Claim C9 (amended): every handleAddMarker call succeeds, appends
exactly one marker to the collection, and returns its id, which is the
string marker- followed by the call's millisecond clock reading; the
returned identifiers of a sequence of calls are pairwise distinct provided
the clock readings of those calls are pairwise distinct. -/
theorem handleAddMarker_amended (markers : List Marker) (m : MarkerData)
    (now : ℕ) (calls : List (MarkerData × ℕ))
    (hts : (calls.map Prod.snd).Pairwise (· ≠ ·)) :
    (handleAddMarker markers m now).1 =
      markers ++ [⟨markerId now, m.name, m.x, m.y, m.width, m.height, m.ocrText⟩] ∧
    (handleAddMarker markers m now).2 = markerId now ∧
    (runAddMarkers markers calls).2.Pairwise (· ≠ ·) := by
  refine ⟨rfl, rfl, ?_⟩
  rw [runAddMarkers_ids calls markers]
  rw [List.pairwise_map] at hts ⊢
  exact hts.imp fun hne hc => hne (markerId_injective _ _ hc)

/-- Counterexample to claim C9 as stated: two handleAddMarker calls within
the same millisecond (equal Date.now readings, here 100) return the same
identifier, so the returned identifiers of a call sequence are not always
pairwise distinct. -/
theorem handleAddMarker_duplicate_id :
    (handleAddMarker [] ⟨"A", 1, 2, 3, 4, none⟩ 100).2 =
      (handleAddMarker (handleAddMarker [] ⟨"A", 1, 2, 3, 4, none⟩ 100).1
        ⟨"B", 5, 6, 7, 8, none⟩ 100).2 ∧
    (handleAddMarker [] ⟨"A", 1, 2, 3, 4, none⟩ 100).2 = "marker-100" := by
  constructor <;> rfl

/-- Witness for claim C9: one call at clock reading 100, and a two-call
sequence at distinct clock readings 100 and 101 yields distinct ids. -/
theorem handleAddMarker_amended_witness :
    (handleAddMarker [] ⟨"A", 1, 2, 3, 4, none⟩ 100).2 = markerId 100 ∧
    (runAddMarkers []
      [(⟨"A", 1, 2, 3, 4, none⟩, 100),
       (⟨"B", 5, 6, 7, 8, none⟩, 101)]).2.Pairwise (· ≠ ·) :=
  ⟨(handleAddMarker_amended [] ⟨"A", 1, 2, 3, 4, none⟩ 100 [] (by simp)).2.1,
   (handleAddMarker_amended [] ⟨"A", 1, 2, 3, 4, none⟩ 100
      [(⟨"A", 1, 2, 3, 4, none⟩, 100), (⟨"B", 5, 6, 7, 8, none⟩, 101)]
      (by decide)).2.2⟩

end ImageMarker
